import Mathlib

/-!
Verification of the refactor-verifier plugin
(src/plugins/refactor-verifier/scripts/verify-refactor.ts and
verify-refactor-detailed.ts).

The scripts operate on JavaScript records (objects keyed by strings).  A
record is embedded as an association list `List (String × α)` whose keys are
unique; `lookupKey` is property access `obj[name]`, `objInsert` is property
assignment `obj[name] = v` (an existing key keeps its position and gets the
new value, a fresh key is appended, exactly as JS objects behave), and
`objAssign` is `Object.assign(target, source)`.
-/

namespace VR

/-- First-wins choice on options (used to state lookup lemmas). -/
def orO (a b : Option α) : Option α :=
  match a with
  | some v => some v
  | none => b

@[simp] theorem orO_some (v : α) (b : Option α) : orO (some v) b = some v := rfl

@[simp] theorem orO_none (b : Option α) : orO none b = b := rfl

/-- Property read `m[name]`: the value at the first pair whose key is `name`. -/
def lookupKey (name : String) : List (String × α) → Option α
  | [] => none
  | (k, v) :: rest => if k = name then some v else lookupKey name rest

/-- Property write `m[key] = v`: an existing key keeps its position and gets
the new value, a fresh key is appended at the end (JS object semantics). -/
def objInsert : List (String × α) → String → α → List (String × α)
  | [], key, v => [(key, v)]
  | (k, w) :: rest, key, v =>
    if k = key then (k, v) :: rest else (k, w) :: objInsert rest key v

/-- `Object.assign(m, d)`: every property of `d` written into `m` in order. -/
def objAssign (m d : List (String × α)) : List (String × α) :=
  d.foldl (fun acc p => objInsert acc p.1 p.2) m

theorem lookupKey_objInsert (m : List (String × α)) (key : String) (v : α) (name : String) :
    lookupKey name (objInsert m key v) = if name = key then some v else lookupKey name m := by
  induction m with
  | nil =>
    by_cases h : name = key
    · simp [objInsert, lookupKey, h]
    · simp [objInsert, lookupKey, h, Ne.symm h]
  | cons p rest ih =>
    obtain ⟨k, w⟩ := p
    by_cases hk : k = key
    · by_cases hn : name = key
      · simp [objInsert, lookupKey, hk, hn]
      · simp [objInsert, lookupKey, hk, hn, Ne.symm hn]
    · by_cases hkn : k = name
      · have hnk : ¬name = key := fun hh => hk (hkn.trans hh)
        simp [objInsert, lookupKey, hk, hkn, hnk]
      · simp [objInsert, lookupKey, hk, hkn, ih]

theorem lookupKey_eq_none_iff (name : String) (m : List (String × α)) :
    lookupKey name m = none ↔ name ∉ m.map Prod.fst := by
  induction m with
  | nil => simp [lookupKey]
  | cons p rest ih =>
    obtain ⟨k, w⟩ := p
    by_cases h : k = name
    · simp [lookupKey, h]
    · simp only [lookupKey, h, if_false, List.map_cons, List.mem_cons]
      rw [ih]
      simp [Ne.symm h]

theorem lookupKey_isSome_iff (name : String) (m : List (String × α)) :
    (lookupKey name m).isSome ↔ name ∈ m.map Prod.fst := by
  rw [← not_not (a := name ∈ m.map Prod.fst), ← lookupKey_eq_none_iff]
  cases lookupKey name m <;> simp

theorem mem_keys_objInsert (m : List (String × α)) (key : String) (v : α) (name : String) :
    name ∈ (objInsert m key v).map Prod.fst ↔ name = key ∨ name ∈ m.map Prod.fst := by
  rw [← lookupKey_isSome_iff, lookupKey_objInsert, ← lookupKey_isSome_iff]
  by_cases h : name = key <;> simp [h]

theorem lookupKey_objAssign (m d : List (String × α)) (name : String) :
    lookupKey name (objAssign m d) =
      orO ((d.reverse.find? (fun p => p.1 = name)).map Prod.snd) (lookupKey name m) := by
  induction d generalizing m with
  | nil => simp [objAssign]
  | cons p rest ih =>
    show lookupKey name (objAssign (objInsert m p.1 p.2) rest) = _
    rw [ih, lookupKey_objInsert]
    simp only [List.reverse_cons, List.find?_append]
    cases hrest : rest.reverse.find? (fun q => decide (q.1 = name)) with
    | some q => simp [hrest, orO]
    | none =>
      by_cases hpn : p.1 = name
      · rw [List.find?_cons_of_pos _ (by simpa using hpn)]
        simp [hrest, hpn.symm]
      · rw [List.find?_cons_of_neg _ (by simpa using hpn)]
        simp [hrest, Ne.symm hpn]

/-! ## Data model of verify-refactor.ts

`TSDefinition`, `TSDefinitions`, `ComparisonResult` and the Python-side
`Definitions` record mirror the interfaces of the script.  The `kind` field is
one of the string literals "function" | "class" | "interface" | "type" |
"const" | "enum", kept as a `String` as in the TypeScript union type. -/

structure TSDefinition where
  body_hash : String
  body : String
  lineno : Nat
  kind : String
deriving DecidableEq, Repr

structure TSDefinitions where
  items : List (String × TSDefinition)
  err : Option String := none
deriving DecidableEq, Repr

/-- One entry of `ComparisonResult.modified` (verify-refactor.ts line 369). -/
structure ModifiedEntry where
  name : String
  type : String
  reason : String
  oldHash : Option String
  newHash : Option String
deriving DecidableEq, Repr

structure ComparisonResult where
  identical : Bool
  added : List String
  removed : List String
  modified : List ModifiedEntry
  matching : List String
deriving DecidableEq, Repr

/-- The signature record get_function_signature builds (PYTHON_EXTRACTOR).
The arg strings, decorator strings and the return type are outputs of
`ast.unparse`, an external library call, so they appear here as data. -/
structure PySignature where
  args : List String
  return_type : Option String
  decorators : List String
  is_async : Bool
deriving DecidableEq, Repr

structure FunctionDef where
  signature : PySignature
  body_hash : String
  body : String
  lineno : Nat
deriving DecidableEq, Repr

structure ClassDef where
  bases : List String
  decorators : List String
  body_hash : String
  body : String
  lineno : Nat
deriving DecidableEq, Repr

structure AssignDef where
  value_hash : String
  value : String
deriving DecidableEq, Repr

/-- An entry of the extractor's "type_aliases" map (the JSON keys are
"annotation", "value", "value_hash"; the first is named `annot` here). -/
structure AnnAssignDef where
  annot : String
  value : Option String
  value_hash : Option String
deriving DecidableEq, Repr

structure Definitions where
  functions : List (String × FunctionDef)
  classes : List (String × ClassDef)
  assignments : List (String × AssignDef)
  type_aliases : List (String × AnnAssignDef)
  err : Option String := none
deriving DecidableEq, Repr

/-! ## The Matcher (compareTSDefinitions, lines 308-340, and
compareDefinitions, lines 373-431)

Both comparison loops have the same shape: iterate over the old revision's
key set, classifying each name as removed / modified / matching, then iterate
over the new revision's key set, classifying the names absent from the old
set as added.  `classifyOld` and `classifyAdded` are the two loop bodies,
parameterised by the membership test, the fingerprint-equality test, the
display name and the modified-entry builder that each call site of the
script instantiates.  Iterating a JS `Set` built from `Object.keys` visits
each distinct key once in insertion order: `.dedup` on the key list. -/

def classifyOld (inNew : String → Bool) (hashEq : String → Bool)
    (remName matchName : String → String) (mkMod : String → ModifiedEntry)
    (r : ComparisonResult) (name : String) : ComparisonResult :=
  if !inNew name then
    { r with removed := r.removed ++ [remName name], identical := false }
  else if !hashEq name then
    { r with modified := r.modified ++ [mkMod name], identical := false }
  else
    { r with matching := r.matching ++ [matchName name] }

def classifyAdded (inOld : String → Bool) (addName : String → String)
    (r : ComparisonResult) (name : String) : ComparisonResult :=
  if !inOld name then
    { r with added := r.added ++ [addName name], identical := false }
  else r

/-- Fingerprint at `name`: `m[name].body_hash` as an optional value. -/
def tsHashAt (items : List (String × TSDefinition)) (name : String) : Option String :=
  (lookupKey name items).map TSDefinition.body_hash

/-- Kind at `name` (`oldDefs.items[name].kind`); the names fed to it always
come from the key set, so the default is never reached. -/
def tsKindAt (items : List (String × TSDefinition)) (name : String) : String :=
  ((lookupKey name items).map TSDefinition.kind).getD ""

def compareTSDefinitions (oldDefs newDefs : TSDefinitions) : ComparisonResult :=
  let oldNames := (oldDefs.items.map Prod.fst).dedup
  let newNames := (newDefs.items.map Prod.fst).dedup
  let afterOld := oldNames.foldl
    (classifyOld (fun nm => decide (nm ∈ newNames))
      (fun nm => decide (tsHashAt oldDefs.items nm = tsHashAt newDefs.items nm))
      id id
      (fun nm =>
        { name := nm, type := tsKindAt oldDefs.items nm, reason := "body changed",
          oldHash := tsHashAt oldDefs.items nm, newHash := tsHashAt newDefs.items nm }))
    { identical := true, added := [], removed := [], modified := [], matching := [] }
  newNames.foldl (classifyAdded (fun nm => decide (nm ∈ oldNames)) id) afterOld

/-- mergeTSDefinitions (lines 300-306): `Object.assign` of every per-file
item record into one. -/
def mergeTSDefinitions (allDefs : List TSDefinitions) : TSDefinitions :=
  { items := allDefs.foldl (fun acc defs => objAssign acc defs.items) [] }

def pyFnHashAt (m : List (String × FunctionDef)) (name : String) : Option String :=
  (lookupKey name m).map FunctionDef.body_hash

def pyClsHashAt (m : List (String × ClassDef)) (name : String) : Option String :=
  (lookupKey name m).map ClassDef.body_hash

/-- compareDefinitions (lines 373-431): the function block then the class
block, each a removed/modified/matching pass over the old keys followed by an
added pass over the new keys. -/
def compareDefinitions (oldDefs newDefs : Definitions) : ComparisonResult :=
  let oldFunctions := (oldDefs.functions.map Prod.fst).dedup
  let newFunctions := (newDefs.functions.map Prod.fst).dedup
  let r1 := oldFunctions.foldl
    (classifyOld (fun nm => decide (nm ∈ newFunctions))
      (fun nm => decide (pyFnHashAt oldDefs.functions nm = pyFnHashAt newDefs.functions nm))
      (fun nm => "function: " ++ nm) (fun nm => "function: " ++ nm)
      (fun nm =>
        { name := nm, type := "function", reason := "body changed",
          oldHash := pyFnHashAt oldDefs.functions nm,
          newHash := pyFnHashAt newDefs.functions nm }))
    { identical := true, added := [], removed := [], modified := [], matching := [] }
  let r2 := newFunctions.foldl
    (classifyAdded (fun nm => decide (nm ∈ oldFunctions)) (fun nm => "function: " ++ nm)) r1
  let oldClasses := (oldDefs.classes.map Prod.fst).dedup
  let newClasses := (newDefs.classes.map Prod.fst).dedup
  let r3 := oldClasses.foldl
    (classifyOld (fun nm => decide (nm ∈ newClasses))
      (fun nm => decide (pyClsHashAt oldDefs.classes nm = pyClsHashAt newDefs.classes nm))
      (fun nm => "class: " ++ nm) (fun nm => "class: " ++ nm)
      (fun nm =>
        { name := nm, type := "class", reason := "body changed",
          oldHash := pyClsHashAt oldDefs.classes nm,
          newHash := pyClsHashAt newDefs.classes nm }))
    r2
  newClasses.foldl
    (classifyAdded (fun nm => decide (nm ∈ oldClasses)) (fun nm => "class: " ++ nm)) r3

/-- mergeDefinitions (lines 354-363): `Object.assign` on each of the four maps. -/
def mergeDefinitions (allDefs : List Definitions) : Definitions :=
  { functions := allDefs.foldl (fun acc defs => objAssign acc defs.functions) []
    classes := allDefs.foldl (fun acc defs => objAssign acc defs.classes) []
    assignments := allDefs.foldl (fun acc defs => objAssign acc defs.assignments) []
    type_aliases := allDefs.foldl (fun acc defs => objAssign acc defs.type_aliases) [] }

/-! ## Closed forms of the two classification folds -/

/-- An element classified by `classifyOld` lands in exactly one of removed /
modified / matching; the flag survives iff every element is present in the
new set with an equal fingerprint. -/
theorem foldl_classifyOld (inNew hashEq : String → Bool)
    (remName matchName : String → String) (mkMod : String → ModifiedEntry)
    (l : List String) (r : ComparisonResult) :
    l.foldl (classifyOld inNew hashEq remName matchName mkMod) r =
      { identical := r.identical && l.all (fun nm => inNew nm && hashEq nm)
        added := r.added
        removed := r.removed ++ (l.filter (fun nm => !inNew nm)).map remName
        modified := r.modified ++ (l.filter (fun nm => inNew nm && !hashEq nm)).map mkMod
        matching := r.matching ++ (l.filter (fun nm => inNew nm && hashEq nm)).map matchName } := by
  induction l generalizing r with
  | nil => simp
  | cons nm rest ih =>
    rw [List.foldl_cons, ih]
    cases hn : inNew nm <;> cases he : hashEq nm <;>
      simp [classifyOld, hn, he, List.filter_cons, List.all_cons]

/-- An element classified by `classifyAdded` is appended to added exactly when
it is absent from the old set; the other lists are untouched. -/
theorem foldl_classifyAdded (inOld : String → Bool) (addName : String → String)
    (l : List String) (r : ComparisonResult) :
    l.foldl (classifyAdded inOld addName) r =
      { identical := r.identical && l.all inOld
        added := r.added ++ (l.filter (fun nm => !inOld nm)).map addName
        removed := r.removed
        modified := r.modified
        matching := r.matching } := by
  induction l generalizing r with
  | nil => simp
  | cons nm rest ih =>
    rw [List.foldl_cons, ih]
    cases hn : inOld nm <;>
      simp [classifyAdded, hn, List.filter_cons, List.all_cons]

theorem isEmpty_append (a b : List α) : (a ++ b).isEmpty = (a.isEmpty && b.isEmpty) := by
  cases a <;> simp [List.isEmpty]

theorem isEmpty_map (f : α → β) (l : List α) : (l.map f).isEmpty = l.isEmpty := by
  cases l <;> simp [List.isEmpty]

/-- A whole pass succeeds iff neither of its two failure filters fires. -/
theorem all_and_eq_filters (l : List α) (p q : α → Bool) :
    l.all (fun x => p x && q x) =
      ((l.filter fun x => !p x).isEmpty && (l.filter fun x => p x && !q x).isEmpty) := by
  induction l with
  | nil => simp
  | cons a t ih => cases hp : p a <;> cases hq : q a <;> simp [hp, hq, ih, List.filter_cons]

theorem all_eq_filter_isEmpty (l : List α) (p : α → Bool) :
    l.all p = (l.filter fun x => !p x).isEmpty := by
  induction l with
  | nil => simp
  | cons a t ih => cases hp : p a <;> simp [hp, ih, List.filter_cons]

theorem count_filter_dedup [DecidableEq α] (l : List α) (p : α → Bool) (a : α) :
    (l.dedup.filter p).count a = if a ∈ l ∧ p a then 1 else 0 := by
  rw [List.count_eq_of_nodup ((List.nodup_dedup l).filter p)]
  simp [List.mem_filter, List.mem_dedup]

theorem count_map_keep_name (l : List String) (mk : String → ModifiedEntry)
    (hmk : ∀ nm, (mk nm).name = nm) (a : String) :
    ((l.map mk).map ModifiedEntry.name).count a = l.count a := by
  rw [List.map_map]
  have : l.map (ModifiedEntry.name ∘ mk) = l.map id :=
    List.map_congr_left fun nm _ => hmk nm
  rw [this, List.map_id]

theorem string_of_data_eq (s t : String) (h : s.data = t.data) : s = t := by
  cases s; cases t; exact congrArg String.mk h

theorem string_append_left_injective (p : String) :
    Function.Injective (fun s => p ++ s) := by
  intro x y h
  simp only at h
  have hd := congrArg String.data h
  rw [String.data_append p x, String.data_append p y] at hd
  exact string_of_data_eq x y (List.append_cancel_left hd)

/-- The script's two display prefixes can never produce the same string. -/
theorem fnPrefix_ne_clsPrefix (a b : String) : "function: " ++ a ≠ "class: " ++ b := by
  intro h
  have hd := congrArg String.data h
  rw [String.data_append "function: " a, String.data_append "class: " b] at hd
  rw [show "function: ".data = 'f' :: "unction: ".data from rfl,
      show "class: ".data = 'c' :: "lass: ".data from rfl] at hd
  rw [List.cons_append, List.cons_append] at hd
  injection hd with h1 h2
  exact absurd h1 (by decide)

theorem count_map_prefix (p : String) (l : List String) (x : String) :
    ((l.map (fun s => p ++ s)).count (p ++ x)) = l.count x :=
  List.count_map_of_injective l _ (string_append_left_injective p) x

theorem count_fnPrefix_map_clsPrefix (l : List String) (x : String) :
    ((l.map (fun s => "class: " ++ s)).count ("function: " ++ x)) = 0 := by
  rw [List.count_eq_zero]
  intro hmem
  rcases List.mem_map.mp hmem with ⟨c, _, hc⟩
  exact fnPrefix_ne_clsPrefix x c hc.symm

theorem count_clsPrefix_map_fnPrefix (l : List String) (x : String) :
    ((l.map (fun s => "function: " ++ s)).count ("class: " ++ x)) = 0 := by
  rw [List.count_eq_zero]
  intro hmem
  rcases List.mem_map.mp hmem with ⟨c, _, hc⟩
  exact fnPrefix_ne_clsPrefix c x hc

/-- Counting the names of the modified entries of one kind: the builders
stamp every entry with its kind, so filtering by a kind keeps exactly the
entries built with it and the names are the underlying names. -/
theorem count_modified_entries (t tk : String) (oldH newH : String → Option String)
    (l : List String) (x : String) :
    ((((l.map (fun nm =>
          ({ name := nm, type := tk, reason := "body changed",
             oldHash := oldH nm, newHash := newH nm } : ModifiedEntry))).filter
        (fun e => e.type = t)).map ModifiedEntry.name).count x) =
      if tk = t then l.count x else 0 := by
  induction l with
  | nil => simp
  | cons nm rest ih =>
    by_cases ht : tk = t
    · subst ht
      simp only [eq_self_iff_true, if_true] at ih
      simp [ih, List.count_cons]
    · simp [ht, ih]

theorem bool_shuffle_three : ∀ a b c : Bool, ((a && b) && c) = ((a && c) && b) := by
  decide

theorem bool_shuffle_six : ∀ a b c d e f : Bool,
    ((((a && b) && c) && (d && e)) && f) = (((a && d) && (c && f)) && (b && e)) := by
  decide

/-! ## C1, C2, C4, C9: the Matcher's classification -/

/-- Counterexample to C1 as stated: the Python DefinitionSet's old revision
holds the constants A (value_hash h1, changed to h2 in new) and B (absent
from new); neither is placed in modified or removed — the comparison comes
back completely empty and identical, because compareDefinitions never looks
at the assignments (or type_aliases) maps. -/
theorem c1_python_constant_unclassified_counterexample :
    lookupKey "A"
      ({ functions := [], classes := [],
         assignments := [("A", ⟨"h1", "1"⟩), ("B", ⟨"h3", "3"⟩)],
         type_aliases := [] } : Definitions).assignments = some ⟨"h1", "1"⟩ ∧
    lookupKey "A"
      ({ functions := [], classes := [], assignments := [("A", ⟨"h2", "2"⟩)],
         type_aliases := [] } : Definitions).assignments = some ⟨"h2", "2"⟩ ∧
    lookupKey "B"
      ({ functions := [], classes := [],
         assignments := [("A", ⟨"h1", "1"⟩), ("B", ⟨"h3", "3"⟩)],
         type_aliases := [] } : Definitions).assignments = some ⟨"h3", "3"⟩ ∧
    lookupKey "B"
      ({ functions := [], classes := [], assignments := [("A", ⟨"h2", "2"⟩)],
         type_aliases := [] } : Definitions).assignments = none ∧
    compareDefinitions
      { functions := [], classes := [],
        assignments := [("A", ⟨"h1", "1"⟩), ("B", ⟨"h3", "3"⟩)], type_aliases := [] }
      { functions := [], classes := [], assignments := [("A", ⟨"h2", "2"⟩)],
        type_aliases := [] } =
      { identical := true, added := [], removed := [], modified := [], matching := [] } := by
  refine ⟨?_, ?_, ?_, ?_, ?_⟩ <;> decide

/-- C1 as amended.  With no alias table in play (the script's compare
functions take none), every name of the old revision's compared maps — the
whole TS item record, and the Python functions and classes maps — is
classified removed when absent from the new revision's same map, modified
(with both fingerprints retained on the entry) when present with a
different fingerprint, matching when present with an equal fingerprint; and
every name of the new revision's compared maps absent from the old one is
classified added.  Names only in the Python assignments/type_aliases maps
are never classified (see the counterexample). -/
theorem c1_compare_classification (o n : TSDefinitions) (od nd : Definitions)
    (name : String) :
    (name ∈ o.items.map Prod.fst → name ∉ n.items.map Prod.fst →
      name ∈ (compareTSDefinitions o n).removed) ∧
    (∀ tod tnd, lookupKey name o.items = some tod → lookupKey name n.items = some tnd →
      tod.body_hash ≠ tnd.body_hash →
      { name := name, type := tod.kind, reason := "body changed",
        oldHash := some tod.body_hash, newHash := some tnd.body_hash } ∈
          (compareTSDefinitions o n).modified) ∧
    (∀ tod tnd, lookupKey name o.items = some tod → lookupKey name n.items = some tnd →
      tod.body_hash = tnd.body_hash → name ∈ (compareTSDefinitions o n).matching) ∧
    (name ∈ n.items.map Prod.fst → name ∉ o.items.map Prod.fst →
      name ∈ (compareTSDefinitions o n).added) ∧
    (name ∈ od.functions.map Prod.fst → name ∉ nd.functions.map Prod.fst →
      ("function: " ++ name) ∈ (compareDefinitions od nd).removed) ∧
    (∀ fo fn_, lookupKey name od.functions = some fo →
      lookupKey name nd.functions = some fn_ → fo.body_hash ≠ fn_.body_hash →
      { name := name, type := "function", reason := "body changed",
        oldHash := some fo.body_hash, newHash := some fn_.body_hash } ∈
          (compareDefinitions od nd).modified) ∧
    (∀ fo fn_, lookupKey name od.functions = some fo →
      lookupKey name nd.functions = some fn_ → fo.body_hash = fn_.body_hash →
      ("function: " ++ name) ∈ (compareDefinitions od nd).matching) ∧
    (name ∈ nd.functions.map Prod.fst → name ∉ od.functions.map Prod.fst →
      ("function: " ++ name) ∈ (compareDefinitions od nd).added) ∧
    (name ∈ od.classes.map Prod.fst → name ∉ nd.classes.map Prod.fst →
      ("class: " ++ name) ∈ (compareDefinitions od nd).removed) ∧
    (∀ co cn, lookupKey name od.classes = some co →
      lookupKey name nd.classes = some cn → co.body_hash ≠ cn.body_hash →
      { name := name, type := "class", reason := "body changed",
        oldHash := some co.body_hash, newHash := some cn.body_hash } ∈
          (compareDefinitions od nd).modified) ∧
    (∀ co cn, lookupKey name od.classes = some co →
      lookupKey name nd.classes = some cn → co.body_hash = cn.body_hash →
      ("class: " ++ name) ∈ (compareDefinitions od nd).matching) ∧
    (name ∈ nd.classes.map Prod.fst → name ∉ od.classes.map Prod.fst →
      ("class: " ++ name) ∈ (compareDefinitions od nd).added) := by
  have hmemo : name ∈ o.items.map Prod.fst ↔ (lookupKey name o.items).isSome :=
    (lookupKey_isSome_iff name o.items).symm
  have hmemn : name ∈ n.items.map Prod.fst ↔ (lookupKey name n.items).isSome :=
    (lookupKey_isSome_iff name n.items).symm
  simp only [compareTSDefinitions, compareDefinitions, foldl_classifyOld,
    foldl_classifyAdded, List.nil_append, List.append_nil]
  refine ⟨fun ho hn => ?_, fun tod tnd hlo hln hne => ?_,
    fun tod tnd hlo hln heq => ?_, fun hn ho => ?_,
    fun ho hn => ?_, fun fo fn_ hlo hln hne => ?_,
    fun fo fn_ hlo hln heq => ?_, fun hn ho => ?_,
    fun ho hn => ?_, fun co cn hlo hln hne => ?_,
    fun co cn hlo hln heq => ?_, fun hn ho => ?_⟩
  · simp [List.mem_filter, List.mem_dedup, ho, hn]
  · have ho : name ∈ o.items.map Prod.fst := hmemo.mpr (by simp [hlo])
    have hn : name ∈ n.items.map Prod.fst := hmemn.mpr (by simp [hln])
    have hha : tsHashAt o.items name ≠ tsHashAt n.items name := by
      simp [tsHashAt, hlo, hln, hne]
    refine List.mem_map.mpr ⟨name, ?_, ?_⟩
    · simp [List.mem_filter, List.mem_dedup, ho, hn, hha]
    · simp [tsKindAt, tsHashAt, hlo, hln]
  · have ho : name ∈ o.items.map Prod.fst := hmemo.mpr (by simp [hlo])
    have hn : name ∈ n.items.map Prod.fst := hmemn.mpr (by simp [hln])
    have hha : tsHashAt o.items name = tsHashAt n.items name := by
      simp [tsHashAt, hlo, hln, heq]
    simp [List.mem_filter, List.mem_dedup, ho, hn, hha]
  · simp [List.mem_filter, List.mem_dedup, ho, hn]
  · refine List.mem_append_left _ (List.mem_map.mpr ⟨name, ?_, rfl⟩)
    refine List.mem_filter.mpr ⟨List.mem_dedup.mpr ho, ?_⟩
    simp only [Bool.not_eq_true', decide_eq_false_iff_not, List.mem_dedup]
    exact hn
  · have ho : name ∈ od.functions.map Prod.fst :=
      (lookupKey_isSome_iff name od.functions).mp (by simp [hlo])
    have hn : name ∈ nd.functions.map Prod.fst :=
      (lookupKey_isSome_iff name nd.functions).mp (by simp [hln])
    refine List.mem_append_left _ (List.mem_map.mpr ⟨name, ?_, ?_⟩)
    · refine List.mem_filter.mpr ⟨List.mem_dedup.mpr ho, ?_⟩
      simp [List.mem_dedup, hn, pyFnHashAt, hlo, hln, hne]
    · simp [pyFnHashAt, hlo, hln]
  · have ho : name ∈ od.functions.map Prod.fst :=
      (lookupKey_isSome_iff name od.functions).mp (by simp [hlo])
    have hn : name ∈ nd.functions.map Prod.fst :=
      (lookupKey_isSome_iff name nd.functions).mp (by simp [hln])
    refine List.mem_append_left _ (List.mem_map.mpr ⟨name, ?_, rfl⟩)
    refine List.mem_filter.mpr ⟨List.mem_dedup.mpr ho, ?_⟩
    simp [List.mem_dedup, hn, pyFnHashAt, hlo, hln, heq]
  · refine List.mem_append_left _ (List.mem_map.mpr ⟨name, ?_, rfl⟩)
    refine List.mem_filter.mpr ⟨List.mem_dedup.mpr hn, ?_⟩
    simp only [Bool.not_eq_true', decide_eq_false_iff_not, List.mem_dedup]
    exact ho
  · refine List.mem_append_right _ (List.mem_map.mpr ⟨name, ?_, rfl⟩)
    refine List.mem_filter.mpr ⟨List.mem_dedup.mpr ho, ?_⟩
    simp only [Bool.not_eq_true', decide_eq_false_iff_not, List.mem_dedup]
    exact hn
  · have ho : name ∈ od.classes.map Prod.fst :=
      (lookupKey_isSome_iff name od.classes).mp (by simp [hlo])
    have hn : name ∈ nd.classes.map Prod.fst :=
      (lookupKey_isSome_iff name nd.classes).mp (by simp [hln])
    refine List.mem_append_right _ (List.mem_map.mpr ⟨name, ?_, ?_⟩)
    · refine List.mem_filter.mpr ⟨List.mem_dedup.mpr ho, ?_⟩
      simp [List.mem_dedup, hn, pyClsHashAt, hlo, hln, hne]
    · simp [pyClsHashAt, hlo, hln]
  · have ho : name ∈ od.classes.map Prod.fst :=
      (lookupKey_isSome_iff name od.classes).mp (by simp [hlo])
    have hn : name ∈ nd.classes.map Prod.fst :=
      (lookupKey_isSome_iff name nd.classes).mp (by simp [hln])
    refine List.mem_append_right _ (List.mem_map.mpr ⟨name, ?_, rfl⟩)
    refine List.mem_filter.mpr ⟨List.mem_dedup.mpr ho, ?_⟩
    simp [List.mem_dedup, hn, pyClsHashAt, hlo, hln, heq]
  · refine List.mem_append_right _ (List.mem_map.mpr ⟨name, ?_, rfl⟩)
    refine List.mem_filter.mpr ⟨List.mem_dedup.mpr hn, ?_⟩
    simp only [Bool.not_eq_true', decide_eq_false_iff_not, List.mem_dedup]
    exact ho

/-- Witness for C1: TS side — old has a (removed), b (body hash differs:
modified with both hashes), c (equal hash: matching), new additionally d
(added); Python side — function pf removed, pm modified with both hashes,
pc matching, pa added, and class k matching. -/
theorem c1_compare_classification_witness :
    ("fn:a" ∈ (compareTSDefinitions
        { items := [("fn:a", ⟨"h1", "ba", 1, "function"⟩),
                    ("fn:b", ⟨"h2", "bb", 2, "function"⟩),
                    ("fn:c", ⟨"h3", "bc", 3, "function"⟩)] }
        { items := [("fn:b", ⟨"h2x", "bb2", 2, "function"⟩),
                    ("fn:c", ⟨"h3", "bc", 3, "function"⟩),
                    ("fn:d", ⟨"h4", "bd", 4, "function"⟩)] }).removed) ∧
    ({ name := "fn:b", type := "function", reason := "body changed",
       oldHash := some "h2", newHash := some "h2x" } ∈ (compareTSDefinitions
        { items := [("fn:a", ⟨"h1", "ba", 1, "function"⟩),
                    ("fn:b", ⟨"h2", "bb", 2, "function"⟩),
                    ("fn:c", ⟨"h3", "bc", 3, "function"⟩)] }
        { items := [("fn:b", ⟨"h2x", "bb2", 2, "function"⟩),
                    ("fn:c", ⟨"h3", "bc", 3, "function"⟩),
                    ("fn:d", ⟨"h4", "bd", 4, "function"⟩)] }).modified) ∧
    ("fn:c" ∈ (compareTSDefinitions
        { items := [("fn:a", ⟨"h1", "ba", 1, "function"⟩),
                    ("fn:b", ⟨"h2", "bb", 2, "function"⟩),
                    ("fn:c", ⟨"h3", "bc", 3, "function"⟩)] }
        { items := [("fn:b", ⟨"h2x", "bb2", 2, "function"⟩),
                    ("fn:c", ⟨"h3", "bc", 3, "function"⟩),
                    ("fn:d", ⟨"h4", "bd", 4, "function"⟩)] }).matching) ∧
    ("fn:d" ∈ (compareTSDefinitions
        { items := [("fn:a", ⟨"h1", "ba", 1, "function"⟩),
                    ("fn:b", ⟨"h2", "bb", 2, "function"⟩),
                    ("fn:c", ⟨"h3", "bc", 3, "function"⟩)] }
        { items := [("fn:b", ⟨"h2x", "bb2", 2, "function"⟩),
                    ("fn:c", ⟨"h3", "bc", 3, "function"⟩),
                    ("fn:d", ⟨"h4", "bd", 4, "function"⟩)] }).added) ∧
    (("function: " ++ "pf") ∈ (compareDefinitions
        { functions := [("pf", ⟨⟨[], none, [], false⟩, "h1", "b1", 1⟩),
                        ("pm", ⟨⟨[], none, [], false⟩, "h2", "b2", 2⟩),
                        ("pc", ⟨⟨[], none, [], false⟩, "h3", "b3", 3⟩)],
          classes := [("k", ⟨[], [], "h5", "b5", 5⟩)],
          assignments := [], type_aliases := [] }
        { functions := [("pm", ⟨⟨[], none, [], false⟩, "h2x", "b2x", 2⟩),
                        ("pc", ⟨⟨[], none, [], false⟩, "h3", "b3", 3⟩),
                        ("pa", ⟨⟨[], none, [], false⟩, "h4", "b4", 4⟩)],
          classes := [("k", ⟨[], [], "h5", "b5", 5⟩)],
          assignments := [], type_aliases := [] }).removed) ∧
    ({ name := "pm", type := "function", reason := "body changed",
       oldHash := some "h2", newHash := some "h2x" } ∈ (compareDefinitions
        { functions := [("pf", ⟨⟨[], none, [], false⟩, "h1", "b1", 1⟩),
                        ("pm", ⟨⟨[], none, [], false⟩, "h2", "b2", 2⟩),
                        ("pc", ⟨⟨[], none, [], false⟩, "h3", "b3", 3⟩)],
          classes := [("k", ⟨[], [], "h5", "b5", 5⟩)],
          assignments := [], type_aliases := [] }
        { functions := [("pm", ⟨⟨[], none, [], false⟩, "h2x", "b2x", 2⟩),
                        ("pc", ⟨⟨[], none, [], false⟩, "h3", "b3", 3⟩),
                        ("pa", ⟨⟨[], none, [], false⟩, "h4", "b4", 4⟩)],
          classes := [("k", ⟨[], [], "h5", "b5", 5⟩)],
          assignments := [], type_aliases := [] }).modified) ∧
    (("function: " ++ "pc") ∈ (compareDefinitions
        { functions := [("pf", ⟨⟨[], none, [], false⟩, "h1", "b1", 1⟩),
                        ("pm", ⟨⟨[], none, [], false⟩, "h2", "b2", 2⟩),
                        ("pc", ⟨⟨[], none, [], false⟩, "h3", "b3", 3⟩)],
          classes := [("k", ⟨[], [], "h5", "b5", 5⟩)],
          assignments := [], type_aliases := [] }
        { functions := [("pm", ⟨⟨[], none, [], false⟩, "h2x", "b2x", 2⟩),
                        ("pc", ⟨⟨[], none, [], false⟩, "h3", "b3", 3⟩),
                        ("pa", ⟨⟨[], none, [], false⟩, "h4", "b4", 4⟩)],
          classes := [("k", ⟨[], [], "h5", "b5", 5⟩)],
          assignments := [], type_aliases := [] }).matching) ∧
    (("function: " ++ "pa") ∈ (compareDefinitions
        { functions := [("pf", ⟨⟨[], none, [], false⟩, "h1", "b1", 1⟩),
                        ("pm", ⟨⟨[], none, [], false⟩, "h2", "b2", 2⟩),
                        ("pc", ⟨⟨[], none, [], false⟩, "h3", "b3", 3⟩)],
          classes := [("k", ⟨[], [], "h5", "b5", 5⟩)],
          assignments := [], type_aliases := [] }
        { functions := [("pm", ⟨⟨[], none, [], false⟩, "h2x", "b2x", 2⟩),
                        ("pc", ⟨⟨[], none, [], false⟩, "h3", "b3", 3⟩),
                        ("pa", ⟨⟨[], none, [], false⟩, "h4", "b4", 4⟩)],
          classes := [("k", ⟨[], [], "h5", "b5", 5⟩)],
          assignments := [], type_aliases := [] }).added) ∧
    (("class: " ++ "k") ∈ (compareDefinitions
        { functions := [("pf", ⟨⟨[], none, [], false⟩, "h1", "b1", 1⟩),
                        ("pm", ⟨⟨[], none, [], false⟩, "h2", "b2", 2⟩),
                        ("pc", ⟨⟨[], none, [], false⟩, "h3", "b3", 3⟩)],
          classes := [("k", ⟨[], [], "h5", "b5", 5⟩)],
          assignments := [], type_aliases := [] }
        { functions := [("pm", ⟨⟨[], none, [], false⟩, "h2x", "b2x", 2⟩),
                        ("pc", ⟨⟨[], none, [], false⟩, "h3", "b3", 3⟩),
                        ("pa", ⟨⟨[], none, [], false⟩, "h4", "b4", 4⟩)],
          classes := [("k", ⟨[], [], "h5", "b5", 5⟩)],
          assignments := [], type_aliases := [] }).matching) := by
  refine ⟨?_, ?_, ?_, ?_, ?_, ?_, ?_, ?_, ?_⟩
  · exact (c1_compare_classification
      { items := [("fn:a", ⟨"h1", "ba", 1, "function"⟩),
                  ("fn:b", ⟨"h2", "bb", 2, "function"⟩),
                  ("fn:c", ⟨"h3", "bc", 3, "function"⟩)] }
      { items := [("fn:b", ⟨"h2x", "bb2", 2, "function"⟩),
                  ("fn:c", ⟨"h3", "bc", 3, "function"⟩),
                  ("fn:d", ⟨"h4", "bd", 4, "function"⟩)] }
      { functions := [], classes := [], assignments := [], type_aliases := [] }
      { functions := [], classes := [], assignments := [], type_aliases := [] }
      "fn:a").1 (by decide) (by decide)
  · exact (c1_compare_classification
      { items := [("fn:a", ⟨"h1", "ba", 1, "function"⟩),
                  ("fn:b", ⟨"h2", "bb", 2, "function"⟩),
                  ("fn:c", ⟨"h3", "bc", 3, "function"⟩)] }
      { items := [("fn:b", ⟨"h2x", "bb2", 2, "function"⟩),
                  ("fn:c", ⟨"h3", "bc", 3, "function"⟩),
                  ("fn:d", ⟨"h4", "bd", 4, "function"⟩)] }
      { functions := [], classes := [], assignments := [], type_aliases := [] }
      { functions := [], classes := [], assignments := [], type_aliases := [] }
      "fn:b").2.1 ⟨"h2", "bb", 2, "function"⟩ ⟨"h2x", "bb2", 2, "function"⟩
      (by decide) (by decide) (by decide)
  · exact (c1_compare_classification
      { items := [("fn:a", ⟨"h1", "ba", 1, "function"⟩),
                  ("fn:b", ⟨"h2", "bb", 2, "function"⟩),
                  ("fn:c", ⟨"h3", "bc", 3, "function"⟩)] }
      { items := [("fn:b", ⟨"h2x", "bb2", 2, "function"⟩),
                  ("fn:c", ⟨"h3", "bc", 3, "function"⟩),
                  ("fn:d", ⟨"h4", "bd", 4, "function"⟩)] }
      { functions := [], classes := [], assignments := [], type_aliases := [] }
      { functions := [], classes := [], assignments := [], type_aliases := [] }
      "fn:c").2.2.1 ⟨"h3", "bc", 3, "function"⟩ ⟨"h3", "bc", 3, "function"⟩
      (by decide) (by decide) (by decide)
  · exact (c1_compare_classification
      { items := [("fn:a", ⟨"h1", "ba", 1, "function"⟩),
                  ("fn:b", ⟨"h2", "bb", 2, "function"⟩),
                  ("fn:c", ⟨"h3", "bc", 3, "function"⟩)] }
      { items := [("fn:b", ⟨"h2x", "bb2", 2, "function"⟩),
                  ("fn:c", ⟨"h3", "bc", 3, "function"⟩),
                  ("fn:d", ⟨"h4", "bd", 4, "function"⟩)] }
      { functions := [], classes := [], assignments := [], type_aliases := [] }
      { functions := [], classes := [], assignments := [], type_aliases := [] }
      "fn:d").2.2.2.1 (by decide) (by decide)
  · exact (c1_compare_classification { items := [] } { items := [] }
      { functions := [("pf", ⟨⟨[], none, [], false⟩, "h1", "b1", 1⟩),
                      ("pm", ⟨⟨[], none, [], false⟩, "h2", "b2", 2⟩),
                      ("pc", ⟨⟨[], none, [], false⟩, "h3", "b3", 3⟩)],
        classes := [("k", ⟨[], [], "h5", "b5", 5⟩)],
        assignments := [], type_aliases := [] }
      { functions := [("pm", ⟨⟨[], none, [], false⟩, "h2x", "b2x", 2⟩),
                      ("pc", ⟨⟨[], none, [], false⟩, "h3", "b3", 3⟩),
                      ("pa", ⟨⟨[], none, [], false⟩, "h4", "b4", 4⟩)],
        classes := [("k", ⟨[], [], "h5", "b5", 5⟩)],
        assignments := [], type_aliases := [] }
      "pf").2.2.2.2.1 (by decide) (by decide)
  · exact (c1_compare_classification { items := [] } { items := [] }
      { functions := [("pf", ⟨⟨[], none, [], false⟩, "h1", "b1", 1⟩),
                      ("pm", ⟨⟨[], none, [], false⟩, "h2", "b2", 2⟩),
                      ("pc", ⟨⟨[], none, [], false⟩, "h3", "b3", 3⟩)],
        classes := [("k", ⟨[], [], "h5", "b5", 5⟩)],
        assignments := [], type_aliases := [] }
      { functions := [("pm", ⟨⟨[], none, [], false⟩, "h2x", "b2x", 2⟩),
                      ("pc", ⟨⟨[], none, [], false⟩, "h3", "b3", 3⟩),
                      ("pa", ⟨⟨[], none, [], false⟩, "h4", "b4", 4⟩)],
        classes := [("k", ⟨[], [], "h5", "b5", 5⟩)],
        assignments := [], type_aliases := [] }
      "pm").2.2.2.2.2.1 ⟨⟨[], none, [], false⟩, "h2", "b2", 2⟩
      ⟨⟨[], none, [], false⟩, "h2x", "b2x", 2⟩ (by decide) (by decide) (by decide)
  · exact (c1_compare_classification { items := [] } { items := [] }
      { functions := [("pf", ⟨⟨[], none, [], false⟩, "h1", "b1", 1⟩),
                      ("pm", ⟨⟨[], none, [], false⟩, "h2", "b2", 2⟩),
                      ("pc", ⟨⟨[], none, [], false⟩, "h3", "b3", 3⟩)],
        classes := [("k", ⟨[], [], "h5", "b5", 5⟩)],
        assignments := [], type_aliases := [] }
      { functions := [("pm", ⟨⟨[], none, [], false⟩, "h2x", "b2x", 2⟩),
                      ("pc", ⟨⟨[], none, [], false⟩, "h3", "b3", 3⟩),
                      ("pa", ⟨⟨[], none, [], false⟩, "h4", "b4", 4⟩)],
        classes := [("k", ⟨[], [], "h5", "b5", 5⟩)],
        assignments := [], type_aliases := [] }
      "pc").2.2.2.2.2.2.1 ⟨⟨[], none, [], false⟩, "h3", "b3", 3⟩
      ⟨⟨[], none, [], false⟩, "h3", "b3", 3⟩ (by decide) (by decide) (by decide)
  · exact (c1_compare_classification { items := [] } { items := [] }
      { functions := [("pf", ⟨⟨[], none, [], false⟩, "h1", "b1", 1⟩),
                      ("pm", ⟨⟨[], none, [], false⟩, "h2", "b2", 2⟩),
                      ("pc", ⟨⟨[], none, [], false⟩, "h3", "b3", 3⟩)],
        classes := [("k", ⟨[], [], "h5", "b5", 5⟩)],
        assignments := [], type_aliases := [] }
      { functions := [("pm", ⟨⟨[], none, [], false⟩, "h2x", "b2x", 2⟩),
                      ("pc", ⟨⟨[], none, [], false⟩, "h3", "b3", 3⟩),
                      ("pa", ⟨⟨[], none, [], false⟩, "h4", "b4", 4⟩)],
        classes := [("k", ⟨[], [], "h5", "b5", 5⟩)],
        assignments := [], type_aliases := [] }
      "pa").2.2.2.2.2.2.2.1 (by decide) (by decide)
  · exact (c1_compare_classification { items := [] } { items := [] }
      { functions := [("pf", ⟨⟨[], none, [], false⟩, "h1", "b1", 1⟩),
                      ("pm", ⟨⟨[], none, [], false⟩, "h2", "b2", 2⟩),
                      ("pc", ⟨⟨[], none, [], false⟩, "h3", "b3", 3⟩)],
        classes := [("k", ⟨[], [], "h5", "b5", 5⟩)],
        assignments := [], type_aliases := [] }
      { functions := [("pm", ⟨⟨[], none, [], false⟩, "h2x", "b2x", 2⟩),
                      ("pc", ⟨⟨[], none, [], false⟩, "h3", "b3", 3⟩),
                      ("pa", ⟨⟨[], none, [], false⟩, "h4", "b4", 4⟩)],
        classes := [("k", ⟨[], [], "h5", "b5", 5⟩)],
        assignments := [], type_aliases := [] }
      "k").2.2.2.2.2.2.2.2.2.2.1 ⟨[], [], "h5", "b5", 5⟩ ⟨[], [], "h5", "b5", 5⟩
      (by decide) (by decide) (by decide)

theorem compareTS_identical_eq (o n : TSDefinitions) :
    (compareTSDefinitions o n).identical =
      ((compareTSDefinitions o n).removed.isEmpty &&
        (compareTSDefinitions o n).added.isEmpty &&
        (compareTSDefinitions o n).modified.isEmpty) := by
  simp only [compareTSDefinitions, foldl_classifyOld, foldl_classifyAdded]
  simp only [all_and_eq_filters]
  simp only [all_eq_filter_isEmpty, isEmpty_append, isEmpty_map,
    List.nil_append, Bool.true_and, List.append_nil]
  exact bool_shuffle_three _ _ _

theorem comparePy_identical_eq (od nd : Definitions) :
    (compareDefinitions od nd).identical =
      ((compareDefinitions od nd).removed.isEmpty &&
        (compareDefinitions od nd).added.isEmpty &&
        (compareDefinitions od nd).modified.isEmpty) := by
  simp only [compareDefinitions, foldl_classifyOld, foldl_classifyAdded]
  simp only [all_and_eq_filters]
  simp only [all_eq_filter_isEmpty, isEmpty_append, isEmpty_map,
    List.nil_append, Bool.true_and, List.append_nil]
  exact bool_shuffle_six _ _ _ _ _ _

/-- C2.  For both compare functions, the identical flag equals the emptiness
of removed, added and modified together; matching entries never touch it. -/
theorem c2_identical_iff_empty (o n : TSDefinitions) (od nd : Definitions) :
    ((compareTSDefinitions o n).identical =
      ((compareTSDefinitions o n).removed.isEmpty &&
        (compareTSDefinitions o n).added.isEmpty &&
        (compareTSDefinitions o n).modified.isEmpty)) ∧
    ((compareDefinitions od nd).identical =
      ((compareDefinitions od nd).removed.isEmpty &&
        (compareDefinitions od nd).added.isEmpty &&
        (compareDefinitions od nd).modified.isEmpty)) :=
  ⟨compareTS_identical_eq o n, comparePy_identical_eq od nd⟩

/-- Counterexample to C4 as stated: a Python DefinitionSet holding only the
constant A, compared with itself — A is a qualified name of both revisions,
yet all four lists come back empty, so it is omitted from all four. -/
theorem c4_python_constant_omitted_counterexample :
    lookupKey "A"
      ({ functions := [], classes := [], assignments := [("A", ⟨"hA", "1"⟩)],
         type_aliases := [] } : Definitions).assignments = some ⟨"hA", "1"⟩ ∧
    compareDefinitions
      { functions := [], classes := [], assignments := [("A", ⟨"hA", "1"⟩)],
        type_aliases := [] }
      { functions := [], classes := [], assignments := [("A", ⟨"hA", "1"⟩)],
        type_aliases := [] } =
      { identical := true, added := [], removed := [], modified := [], matching := [] } := by
  refine ⟨?_, ?_⟩ <;> decide

/-- C4 as amended.  Every qualified name appearing in either revision's
compared maps is counted exactly once across removed, modified, matching,
added, and a name in neither appears nowhere: for TS, the four lists
partition the union of the two item key sets; for Python, the "function: "
names (and the modified entries stamped "function") partition the union of
the functions key sets, the "class: " names those of the classes key sets.
Names only in the Python assignments/type_aliases maps appear in none of
the four lists (see the counterexample). -/
theorem c4_partition_exactly_once (o n : TSDefinitions) (od nd : Definitions)
    (name : String) :
    ((compareTSDefinitions o n).removed.count name +
      ((compareTSDefinitions o n).modified.map ModifiedEntry.name).count name +
      (compareTSDefinitions o n).matching.count name +
      (compareTSDefinitions o n).added.count name =
      if name ∈ o.items.map Prod.fst ∨ name ∈ n.items.map Prod.fst then 1 else 0) ∧
    ((compareDefinitions od nd).removed.count ("function: " ++ name) +
      (((compareDefinitions od nd).modified.filter
        (fun e => e.type = "function")).map ModifiedEntry.name).count name +
      (compareDefinitions od nd).matching.count ("function: " ++ name) +
      (compareDefinitions od nd).added.count ("function: " ++ name) =
      if name ∈ od.functions.map Prod.fst ∨ name ∈ nd.functions.map Prod.fst
        then 1 else 0) ∧
    ((compareDefinitions od nd).removed.count ("class: " ++ name) +
      (((compareDefinitions od nd).modified.filter
        (fun e => e.type = "class")).map ModifiedEntry.name).count name +
      (compareDefinitions od nd).matching.count ("class: " ++ name) +
      (compareDefinitions od nd).added.count ("class: " ++ name) =
      if name ∈ od.classes.map Prod.fst ∨ name ∈ nd.classes.map Prod.fst
        then 1 else 0) := by
  refine ⟨?_, ?_, ?_⟩
  · simp only [compareTSDefinitions, foldl_classifyOld, foldl_classifyAdded,
      List.nil_append, List.append_nil, List.map_id]
    rw [count_map_keep_name _ _ (fun nm => rfl)]
    rw [count_filter_dedup, count_filter_dedup, count_filter_dedup, count_filter_dedup]
    by_cases ho : name ∈ o.items.map Prod.fst <;>
      by_cases hn : name ∈ n.items.map Prod.fst <;>
      by_cases hh : tsHashAt o.items name = tsHashAt n.items name <;>
      simp [ho, hn, hh, List.mem_dedup]
  · simp only [compareDefinitions, foldl_classifyOld, foldl_classifyAdded,
      List.nil_append, List.append_nil]
    simp only [List.filter_append, List.map_append, List.count_append,
      count_map_prefix, count_fnPrefix_map_clsPrefix, count_modified_entries]
    simp only [show ("class" : String) ≠ "function" from by decide, if_false,
      if_true, eq_self_iff_true, Nat.add_zero]
    rw [count_filter_dedup, count_filter_dedup, count_filter_dedup, count_filter_dedup]
    by_cases ho : name ∈ od.functions.map Prod.fst <;>
      by_cases hn : name ∈ nd.functions.map Prod.fst <;>
      by_cases hh : pyFnHashAt od.functions name = pyFnHashAt nd.functions name <;>
      simp [ho, hn, hh, List.mem_dedup]
  · simp only [compareDefinitions, foldl_classifyOld, foldl_classifyAdded,
      List.nil_append, List.append_nil]
    simp only [List.filter_append, List.map_append, List.count_append,
      count_map_prefix, count_clsPrefix_map_fnPrefix, count_modified_entries]
    simp only [show ("function" : String) ≠ "class" from by decide, if_false,
      if_true, eq_self_iff_true, Nat.add_zero]
    rw [count_filter_dedup, count_filter_dedup, count_filter_dedup, count_filter_dedup]
    by_cases ho : name ∈ od.classes.map Prod.fst <;>
      by_cases hn : name ∈ nd.classes.map Prod.fst <;>
      by_cases hh : pyClsHashAt od.classes name = pyClsHashAt nd.classes name <;>
      simp [ho, hn, hh, List.mem_dedup]

/-- Counterexample to C9 as stated: a Python DefinitionSet holding only the
annotated binding T, compared with itself — matching comes back empty, so
the qualified name T is in no list at all, not in matching. -/
theorem c9_python_constant_not_matching_counterexample :
    lookupKey "T"
      ({ functions := [], classes := [], assignments := [],
         type_aliases := [("T", ⟨"int", some "3", some "h3"⟩)] } : Definitions).type_aliases =
      some ⟨"int", some "3", some "h3"⟩ ∧
    (compareDefinitions
      { functions := [], classes := [], assignments := [],
        type_aliases := [("T", ⟨"int", some "3", some "h3"⟩)] }
      { functions := [], classes := [], assignments := [],
        type_aliases := [("T", ⟨"int", some "3", some "h3"⟩)] }).matching = [] := by
  refine ⟨?_, ?_⟩ <;> decide

/-- C9 as amended.  Comparing a revision with itself: identical, the three
difference lists empty, and every key of the compared maps (TS items, Python
functions and classes, with the script's "function: " and "class: " display
prefixes) in matching; a name only in the Python assignments/type_aliases
maps lands in no list (see the counterexample). -/
theorem c9_self_compare_identical (o : TSDefinitions) (d : Definitions) :
    (compareTSDefinitions o o).identical = true ∧
    (compareTSDefinitions o o).removed = [] ∧
    (compareTSDefinitions o o).added = [] ∧
    (compareTSDefinitions o o).modified = [] ∧
    (∀ name ∈ o.items.map Prod.fst, name ∈ (compareTSDefinitions o o).matching) ∧
    (compareDefinitions d d).identical = true ∧
    (compareDefinitions d d).removed = [] ∧
    (compareDefinitions d d).added = [] ∧
    (compareDefinitions d d).modified = [] ∧
    (∀ name ∈ d.functions.map Prod.fst,
      "function: " ++ name ∈ (compareDefinitions d d).matching) ∧
    (∀ name ∈ d.classes.map Prod.fst,
      "class: " ++ name ∈ (compareDefinitions d d).matching) := by
  simp only [compareTSDefinitions, compareDefinitions, foldl_classifyOld, foldl_classifyAdded,
    List.nil_append, List.append_nil]
  refine ⟨?_, ?_, ?_, ?_, ?_, ?_, ?_, ?_, ?_, ?_, ?_⟩
  · simp [List.all_eq_true, List.mem_dedup]
  · simp [List.filter_eq_nil_iff, List.mem_dedup]
  · simp [List.filter_eq_nil_iff, List.mem_dedup]
  · simp [List.filter_eq_nil_iff, List.mem_dedup]
  · intro name hname
    simp [List.mem_filter, List.mem_dedup, hname]
  · simp [List.all_eq_true, List.mem_dedup]
  · simp [List.filter_eq_nil_iff, List.mem_dedup]
  · simp [List.filter_eq_nil_iff, List.mem_dedup]
  · simp [List.filter_eq_nil_iff, List.mem_dedup]
  · intro name hname
    refine List.mem_append_left _ (List.mem_map.mpr ⟨name, ?_, rfl⟩)
    simp [List.mem_filter, List.mem_dedup, hname]
  · intro name hname
    refine List.mem_append_right _ (List.mem_map.mpr ⟨name, ?_, rfl⟩)
    simp [List.mem_filter, List.mem_dedup, hname]

/-- Witness for C9 at a concrete one-function revision. -/
theorem c9_self_compare_identical_witness :
    (compareTSDefinitions { items := [("fn:f", ⟨"h", "b", 1, "function"⟩)] }
      { items := [("fn:f", ⟨"h", "b", 1, "function"⟩)] }).identical = true ∧
    "fn:f" ∈ (compareTSDefinitions { items := [("fn:f", ⟨"h", "b", 1, "function"⟩)] }
      { items := [("fn:f", ⟨"h", "b", 1, "function"⟩)] }).matching ∧
    "function: g" ∈ (compareDefinitions
      { functions := [("g", ⟨⟨[], none, [], false⟩, "hg", "bg", 1⟩)],
        classes := [], assignments := [], type_aliases := [] }
      { functions := [("g", ⟨⟨[], none, [], false⟩, "hg", "bg", 1⟩)],
        classes := [], assignments := [], type_aliases := [] }).matching :=
  ⟨(c9_self_compare_identical { items := [("fn:f", ⟨"h", "b", 1, "function"⟩)] }
      { functions := [("g", ⟨⟨[], none, [], false⟩, "hg", "bg", 1⟩)],
        classes := [], assignments := [], type_aliases := [] }).1,
   (c9_self_compare_identical { items := [("fn:f", ⟨"h", "b", 1, "function"⟩)] }
      { functions := [("g", ⟨⟨[], none, [], false⟩, "hg", "bg", 1⟩)],
        classes := [], assignments := [], type_aliases := [] }).2.2.2.2.1 "fn:f" (by decide),
   (c9_self_compare_identical { items := [("fn:f", ⟨"h", "b", 1, "function"⟩)] }
      { functions := [("g", ⟨⟨[], none, [], false⟩, "hg", "bg", 1⟩)],
        classes := [], assignments := [], type_aliases := [] }).2.2.2.2.2.2.2.2.2.1
        "g" (by decide)⟩

/-! ## C6: the Python comparison reads only functions and classes -/

/-- C6.  compareDefinitions is a function of the two functions maps and the
two classes maps alone: inputs agreeing there (whatever their assignments and
type_aliases maps hold) yield the same ComparisonResult, so a change confined
to assignments or annotated bindings can never surface in removed, added or
modified, nor clear the identical flag. -/
theorem c6_compare_depends_only_on_functions_classes (o1 o2 n1 n2 : Definitions)
    (hof : o1.functions = o2.functions) (hoc : o1.classes = o2.classes)
    (hnf : n1.functions = n2.functions) (hnc : n1.classes = n2.classes) :
    compareDefinitions o1 n1 = compareDefinitions o2 n2 := by
  simp only [compareDefinitions, hof, hoc, hnf, hnc]

/-- Witness for C6: two pairs agreeing on functions and classes but with
different assignments and type_aliases compare equal. -/
theorem c6_depends_witness :
    compareDefinitions
      { functions := [("f", ⟨⟨[], none, [], false⟩, "h", "b", 1⟩)], classes := [],
        assignments := [("A", ⟨"va", "1"⟩)], type_aliases := [] }
      { functions := [], classes := [], assignments := [], type_aliases := [] } =
    compareDefinitions
      { functions := [("f", ⟨⟨[], none, [], false⟩, "h", "b", 1⟩)], classes := [],
        assignments := [("A", ⟨"vb", "2"⟩)],
        type_aliases := [("T", ⟨"int", some "3", some "h3"⟩)] }
      { functions := [], classes := [], assignments := [("B", ⟨"vc", "4"⟩)],
        type_aliases := [] } :=
  c6_compare_depends_only_on_functions_classes _ _ _ _ rfl rfl rfl rfl

/-! ## C10: merging per-file definition sets is last-write-wins -/

theorem orO_assoc (a b c : Option α) : orO (orO a b) c = orO a (orO b c) := by
  cases a <;> simp

theorem getLast?_cons_orO (v : α) (xs : List α) :
    (v :: xs).getLast? = orO xs.getLast? (some v) := by
  induction xs with
  | nil => simp [orO]
  | cons w ws ih =>
    rw [List.getLast?_cons_cons]
    cases h : (w :: ws).getLast? with
    | some u => simp [h, orO]
    | none => simp at h

theorem orO_none_right (a : Option α) : orO a none = a := by cases a <;> rfl

/-- On a record with unique keys, `Object.assign` makes the source's entries
win over the target's. -/
theorem lookupKey_objAssign_nodup (m d : List (String × α))
    (hd : (d.map Prod.fst).Nodup) (name : String) :
    lookupKey name (objAssign m d) = orO (lookupKey name d) (lookupKey name m) := by
  induction d generalizing m with
  | nil => simp [objAssign, lookupKey]
  | cons p rest ih =>
    rw [List.map_cons, List.nodup_cons] at hd
    show lookupKey name (objAssign (objInsert m p.1 p.2) rest) = _
    rw [ih _ hd.2, lookupKey_objInsert]
    by_cases hpn : p.1 = name
    · have hnr : name ∉ rest.map Prod.fst := hpn ▸ hd.1
      have hlr : lookupKey name rest = none := (lookupKey_eq_none_iff name rest).mpr hnr
      subst hpn
      simp [lookupKey, hlr]
    · simp [lookupKey, hpn, Ne.symm hpn]

/-- The aggregation fold: the value at `name` is the last contributing
record's value, falling back to the accumulator. -/
theorem lookupKey_foldl_objAssign (name : String) (ms : List (List (String × α)))
    (acc : List (String × α)) (h : ∀ m ∈ ms, (m.map Prod.fst).Nodup) :
    lookupKey name (ms.foldl objAssign acc) =
      orO (ms.filterMap (lookupKey name)).getLast? (lookupKey name acc) := by
  induction ms generalizing acc with
  | nil => simp [orO]
  | cons d rest ih =>
    rw [List.foldl_cons]
    rw [ih _ fun m hm => h m (List.mem_cons_of_mem _ hm)]
    rw [lookupKey_objAssign_nodup _ _ (h d (List.mem_cons_self _ _))]
    cases hd : lookupKey name d with
    | some v =>
      rw [List.filterMap_cons, hd, getLast?_cons_orO, orO_assoc]
    | none =>
      rw [List.filterMap_cons, hd]
      simp [orO]

/-- C10.  For both merge functions: a qualified name found in several
per-file sets resolves to the definition of the last set containing it, and
a name found in exactly one per-file set keeps that set's definition. -/
theorem c10_merge_last_write_wins (l : List TSDefinitions) (pl : List Definitions)
    (name : String)
    (h : ∀ d ∈ l, (d.items.map Prod.fst).Nodup)
    (hp : ∀ d ∈ pl, (d.functions.map Prod.fst).Nodup) :
    (lookupKey name (mergeTSDefinitions l).items =
      (l.filterMap (fun d => lookupKey name d.items)).getLast?) ∧
    (∀ v, l.filterMap (fun d => lookupKey name d.items) = [v] →
      lookupKey name (mergeTSDefinitions l).items = some v) ∧
    (lookupKey name (mergeDefinitions pl).functions =
      (pl.filterMap (fun d => lookupKey name d.functions)).getLast?) := by
  have hts : lookupKey name (mergeTSDefinitions l).items =
      (l.filterMap (fun d => lookupKey name d.items)).getLast? := by
    show lookupKey name (l.foldl (fun acc defs => objAssign acc defs.items) []) = _
    rw [← List.foldl_map TSDefinitions.items objAssign]
    rw [lookupKey_foldl_objAssign _ _ _ (by simpa using h)]
    rw [List.filterMap_map]
    rw [show lookupKey name ([] : List (String × TSDefinition)) = none from rfl]
    rw [orO_none_right]
    rfl
  refine ⟨hts, fun v hv => by rw [hts, hv]; rfl, ?_⟩
  show lookupKey name (pl.foldl (fun acc defs => objAssign acc defs.functions) []) = _
  rw [← List.foldl_map Definitions.functions objAssign]
  rw [lookupKey_foldl_objAssign _ _ _ (by simpa using hp)]
  rw [List.filterMap_map]
  rw [show lookupKey name ([] : List (String × FunctionDef)) = none from rfl]
  rw [orO_none_right]
  rfl

/-- Witness for C10: three files, the first and third defining "fn:f"; the
merged set keeps the third file's definition, and a name defined once
("fn:g", second file) is carried unchanged. -/
theorem c10_merge_last_write_wins_witness :
    lookupKey "fn:f" (mergeTSDefinitions
      [{ items := [("fn:f", ⟨"h1", "b1", 1, "function"⟩)] },
       { items := [("fn:g", ⟨"h2", "b2", 1, "function"⟩)] },
       { items := [("fn:f", ⟨"h3", "b3", 1, "function"⟩)] }]).items =
      some ⟨"h3", "b3", 1, "function"⟩ ∧
    lookupKey "fn:g" (mergeTSDefinitions
      [{ items := [("fn:f", ⟨"h1", "b1", 1, "function"⟩)] },
       { items := [("fn:g", ⟨"h2", "b2", 1, "function"⟩)] },
       { items := [("fn:f", ⟨"h3", "b3", 1, "function"⟩)] }]).items =
      some ⟨"h2", "b2", 1, "function"⟩ :=
  ⟨by
    rw [(c10_merge_last_write_wins _ [] "fn:f" (by decide) (by simp)).1]
    decide,
   by
    rw [(c10_merge_last_write_wins _ [] "fn:g" (by decide) (by simp)).1]
    decide⟩

/-! ## normalizeTSCode (verify-refactor.ts lines 209-215)

`code.replace(/\/\/.*$/gm, "").replace(/\/\*[\s\S]*?\*\//g, "")
.replace(/\s+/g, " ").trim()`, as four passes over the character list.
Each regex pass is a left-to-right scan, written as a state machine so that
it is structurally recursive (and so kernel-evaluable):

* line comments: from `//` up to (excluding) the next newline is dropped;
* block comments: a lazily matched `/* ... */` is dropped; a `/*` with no
  later `*/` stays, exactly as the unanchored regex leaves it unmatched;
* whitespace runs collapse to one space; `trim` strips both ends.
JS `\s` is the Unicode whitespace class, reproduced in `isJsWs`. -/

def isJsWs (c : Char) : Bool :=
  c = ' ' || c = '\t' || c = '\n' || c = '\r' || c = '\x0b' || c = '\x0c' ||
  c.val = 0xa0 || c.val = 0x1680 || (0x2000 ≤ c.val && c.val ≤ 0x200a) ||
  c.val = 0x2028 || c.val = 0x2029 || c.val = 0x202f || c.val = 0x205f ||
  c.val = 0x3000 || c.val = 0xfeff

/-- The ECMAScript LineTerminator set: `.` in a regex matches anything but
these, and a multiline `$` matches just before them. -/
def isJsLineTerminator (c : Char) : Bool :=
  c = '\n' || c = '\r' || c = '\u2028' || c = '\u2029'

/-- Pass 1, `replace(/\/\/.*$/gm, "")`; the flag says "inside a line
comment", which any line terminator ends (and is kept). -/
def stripLineAux : Bool → List Char → List Char
  | _, [] => []
  | true, c :: rest =>
    if isJsLineTerminator c then c :: stripLineAux false rest
    else stripLineAux true rest
  | false, '/' :: '/' :: rest => stripLineAux true rest
  | false, c :: rest => c :: stripLineAux false rest

/-- Does the list contain a later `*/`? (the lazy block regex only matches
when a closer exists). -/
def hasBlockEnd : List Char → Bool
  | '*' :: '/' :: _ => true
  | _ :: rest => hasBlockEnd rest
  | [] => false

/-- Pass 2, `replace(/\/\*[\s\S]*?\*\//g, "")`; the flag says "inside a
block comment". -/
def stripBlockAux : Bool → List Char → List Char
  | _, [] => []
  | true, '*' :: '/' :: rest => stripBlockAux false rest
  | true, _ :: rest => stripBlockAux true rest
  | false, '/' :: '*' :: rest =>
    if hasBlockEnd rest then stripBlockAux true rest
    else '/' :: '*' :: stripBlockAux false rest
  | false, c :: rest => c :: stripBlockAux false rest

/-- Pass 3, `replace(/\s+/g, " ")`; the flag says "the previous character
belonged to a whitespace run". -/
def collapseWsAux : Bool → List Char → List Char
  | _, [] => []
  | afterWs, c :: rest =>
    if isJsWs c then
      if afterWs then collapseWsAux true rest else ' ' :: collapseWsAux true rest
    else c :: collapseWsAux false rest

/-- Pass 4, `.trim()`. -/
def trimJs (l : List Char) : List Char :=
  ((l.dropWhile isJsWs).reverse.dropWhile isJsWs).reverse

def normalizeTSCode (code : String) : String :=
  String.mk (trimJs (collapseWsAux false (stripBlockAux false (stripLineAux false code.data))))

/-! ## C8: the weak normalization is not comment-insensitive

"a b" and "a/\x2ax\x2a/b" have the same token sequence (a TypeScript lexer
treats the block comment as trivia separating the identifiers `a` and `b`),
yet the normalization maps them to different strings ("a b" and "ab"), so
the fingerprints are computed from different inputs and the definition is
reported as modified.  The skill documentation promises the opposite
("Comments: Changes to comments don't affect body hash", "Formatting:
Whitespace changes don't affect hash"). -/

theorem c8_normalize_comment_insertion_changes :
    normalizeTSCode "a b" = "a b" ∧
    normalizeTSCode "a/*x*/b" = "ab" ∧
    normalizeTSCode "a b" ≠ normalizeTSCode "a/*x*/b" := by
  refine ⟨?_, ?_, ?_⟩ <;> decide

/-! ## extractTSDefinitions (verify-refactor.ts lines 217-298)

The TypeScript AST is embedded at the granularity the visitor inspects: a
node is one of the six declaration shapes the visitor tests for, or any
other node; every node carries its children (`ts.forEachChild`).  `src`
stands for `sourceCode.slice(node.pos, node.end)` and `line` for the
1-based start line; both are data of the node, as is the shape of a
variable declaration's initializer.  `Bun.hash(...).toString(16)` is an
external primitive, so extraction is parameterised by the hash function. -/

inductive TSInitKind where
  | arrowFunction
  | functionExpression
  | callExpression
  | otherInit
deriving DecidableEq, Repr

/-- One declarator of a variable statement: its name when it is a plain
identifier, and the shape of its initializer when it has one. -/
structure TSVarDecl where
  declName : Option String
  init : Option TSInitKind
deriving DecidableEq, Repr

mutual
inductive TSNode where
  | functionDecl (name : Option String) (src : String) (line : Nat) (children : TSNodeList)
  | variableStatement (decls : List TSVarDecl) (src : String) (line : Nat) (children : TSNodeList)
  | classDecl (name : Option String) (src : String) (line : Nat) (children : TSNodeList)
  | interfaceDecl (name : String) (src : String) (line : Nat) (children : TSNodeList)
  | typeAliasDecl (name : String) (src : String) (line : Nat) (children : TSNodeList)
  | enumDecl (name : String) (src : String) (line : Nat) (children : TSNodeList)
  | otherNode (children : TSNodeList)
deriving DecidableEq, Repr
inductive TSNodeList where
  | nil
  | cons (hd : TSNode) (tl : TSNodeList)
deriving DecidableEq, Repr
end

mutual
/-- The `visit` closure: emit this node's definitions (if its shape matches
one of the six tests), then `ts.forEachChild(node, visit)`. -/
def tsVisit (hash : String → String) (node : TSNode)
    (acc : List (String × TSDefinition)) : List (String × TSDefinition) :=
  match node with
  | .functionDecl name src line children =>
    tsVisitList hash children
      (match name with
       | some nm =>
         objInsert acc ("fn:" ++ nm)
           ⟨hash (normalizeTSCode src), src, line, "function"⟩
       | none => acc)
  | .variableStatement decls src line children =>
    tsVisitList hash children
      (decls.foldl (fun a decl =>
        match decl.declName, decl.init with
        | some nm, some k =>
          if k = .arrowFunction ∨ k = .functionExpression ∨ k = .callExpression then
            objInsert a ("const:" ++ nm)
              ⟨hash (normalizeTSCode src), src, line, "const"⟩
          else a
        | _, _ => a) acc)
  | .classDecl name src line children =>
    tsVisitList hash children
      (match name with
       | some nm =>
         objInsert acc ("class:" ++ nm)
           ⟨hash (normalizeTSCode src), src, line, "class"⟩
       | none => acc)
  | .interfaceDecl name src line children =>
    tsVisitList hash children
      (objInsert acc ("interface:" ++ name)
        ⟨hash (normalizeTSCode src), src, line, "interface"⟩)
  | .typeAliasDecl name src line children =>
    tsVisitList hash children
      (objInsert acc ("type:" ++ name)
        ⟨hash (normalizeTSCode src), src, line, "type"⟩)
  | .enumDecl name src line children =>
    tsVisitList hash children
      (objInsert acc ("enum:" ++ name)
        ⟨hash (normalizeTSCode src), src, line, "enum"⟩)
  | .otherNode children => tsVisitList hash children acc

def tsVisitList (hash : String → String) (l : TSNodeList)
    (acc : List (String × TSDefinition)) : List (String × TSDefinition) :=
  match l with
  | .nil => acc
  | .cons n rest => tsVisitList hash rest (tsVisit hash n acc)
end

/-- extractTSDefinitions on a parsed source file whose top-level statements
are `roots` (the source file node itself matches none of the six tests, so
`visit(sourceFile)` goes straight to its children). -/
def extractTSDefinitions (hash : String → String) (roots : TSNodeList) : TSDefinitions :=
  { items := tsVisitList hash roots [] }

/-! ## C5: the visitor recurses into children, so nested declarations are
emitted too

A function declaration `inner` nested in the body of `outer` is visited by
`ts.forEachChild` recursion and emitted as its own `fn:inner` entry, against
the spec's "only top-level definitions are extracted" and the skill
documentation's "Nested functions: Only top-level definitions are compared".
The Python extractor really is top-level only (it walks `tree.body` and
never a definition's body), as the second and third conjuncts show on the
analogous nested input. -/

/-! ## The Python extractor (PYTHON_EXTRACTOR, verify-refactor.ts lines 35-136)

`extract_definitions` walks `tree.body`, the module's top-level statement
list, and only it: a statement is a (possibly async) function definition, a
class definition, a plain assignment, an annotated assignment, or anything
else.  Definition statements carry their own (never walked) body statements,
the string `ast.unparse(node)` yields for them, and their line number; the
signature record is carried as node data (its pieces are `ast.unparse`
outputs of the argument annotations).  `hashlib.sha256(...).hexdigest()` is
the external fingerprint primitive, again a parameter. -/

inductive PyTarget where
  | name (id : String)
  | otherTarget
deriving DecidableEq, Repr

inductive PyStmt where
  | functionDef (nm : String) (sig : PySignature) (unparsed : String) (lineno : Nat)
      (body : List PyStmt)
  | classDef (nm : String) (bases : List String) (decorators : List String)
      (unparsed : String) (lineno : Nat) (body : List PyStmt)
  | assign (targets : List PyTarget) (valueUnparsed : String)
  | annAssign (target : PyTarget) (annotUnparsed : String) (valueUnparsed : Option String)
  | otherStmt
deriving Repr

/-- A file's parse outcome: `ast.parse` yields the top-level statement list
or raises `SyntaxError` (whose message the except-branch embeds). -/
inductive PyFile where
  | valid (body : List PyStmt)
  | invalid (msg : String)
deriving Repr

def pyExtractStep (hash : String → String) (defs : Definitions) : PyStmt → Definitions
  | .functionDef nm sig unparsed lineno _body =>
    { defs with functions :=
        objInsert defs.functions nm ⟨sig, hash unparsed, unparsed, lineno⟩ }
  | .classDef nm bases decorators unparsed lineno _body =>
    { defs with classes :=
        objInsert defs.classes nm ⟨bases, decorators, hash unparsed, unparsed, lineno⟩ }
  | .assign targets valueUnparsed =>
    { defs with assignments :=
        targets.foldl (fun a t =>
          match t with
          | .name id => objInsert a id ⟨hash valueUnparsed, valueUnparsed⟩
          | .otherTarget => a) defs.assignments }
  | .annAssign (.name id) annotU valueU =>
    { defs with type_aliases :=
        objInsert defs.type_aliases id ⟨annotU, valueU, valueU.map hash⟩ }
  | .annAssign .otherTarget _ _ => defs
  | .otherStmt => defs

/-- extract_definitions: `{"error": ...}` on a SyntaxError (no partial
maps), else the fold of the top-level statements. -/
def extract_definitions (hash : String → String) (file : PyFile) (filename : String) :
    Definitions :=
  match file with
  | .invalid msg =>
    { functions := [], classes := [], assignments := [], type_aliases := [],
      err := some ("Syntax error in " ++ filename ++ ": " ++ msg) }
  | .valid body =>
    body.foldl (pyExtractStep hash)
      { functions := [], classes := [], assignments := [], type_aliases := [] }

/-- The Python half of main() (verify-refactor.ts lines 512-527) for one
revision: for each (filename, content) pair whose content is present, run
the extractor, keep the result only when it carries no error, and merge. -/
def pythonRevisionDefs (hash : String → String) (files : List (String × Option PyFile)) :
    Definitions :=
  mergeDefinitions
    (((files.filterMap (fun fp => fp.2.map (fun f => extract_definitions hash f fp.1))).filter
      (fun d => d.err = none)))

/-! ## C5: the visitor recurses into children, so nested declarations are
emitted too

A function declaration `inner` nested in the body of `outer` is visited by
`ts.forEachChild` recursion and emitted as its own `fn:inner` entry, against
the spec's "only top-level definitions are extracted" and the skill
documentation's "Nested functions: Only top-level definitions are compared".
The Python extractor really is top-level only (it walks `tree.body` and
never a definition's body), as the last two conjuncts show on the analogous
nested input. -/

theorem c5_ts_extractor_emits_nested :
    "fn:inner" ∈ (extractTSDefinitions (fun s => s)
      (.cons (.functionDecl (some "outer") "function outer() stuff" 1
        (.cons (.functionDecl (some "inner") "function inner() stuff" 2 .nil) .nil)) .nil)).items.map
        Prod.fst ∧
    "fn:outer" ∈ (extractTSDefinitions (fun s => s)
      (.cons (.functionDecl (some "outer") "function outer() stuff" 1
        (.cons (.functionDecl (some "inner") "function inner() stuff" 2 .nil) .nil)) .nil)).items.map
        Prod.fst ∧
    "outer" ∈ (extract_definitions (fun s => s)
      (.valid [.functionDef "outer" ⟨[], none, [], false⟩ "def outer(): stuff" 1
        [.functionDef "inner" ⟨[], none, [], false⟩ "def inner(): stuff" 2 []]]) "a.py").functions.map
        Prod.fst ∧
    "inner" ∉ (extract_definitions (fun s => s)
      (.valid [.functionDef "outer" ⟨[], none, [], false⟩ "def outer(): stuff" 1
        [.functionDef "inner" ⟨[], none, [], false⟩ "def inner(): stuff" 2 []]]) "a.py").functions.map
        Prod.fst := by
  refine ⟨?_, ?_, ?_, ?_⟩ <;> decide

/-! ## C7: a file that fails to parse is excluded whole, and its lost
definitions surface as removed -/

/-- Counterexample to C7 as stated: the old revision holds only the constant
A; the new revision's sole copy of its file is syntactically invalid.  A is
lost, yet nothing is classified removed and the comparison stays identical —
the run would print VERIFICATION PASSED. -/
theorem c7_constant_lost_counterexample :
    lookupKey "A"
      ({ functions := [], classes := [], assignments := [("A", ⟨"hA", "1"⟩)],
         type_aliases := [] } : Definitions).assignments = some ⟨"hA", "1"⟩ ∧
    (pythonRevisionDefs (fun s => s) [("bad.py", some (.invalid "boom"))]).assignments
      = [] ∧
    (compareDefinitions
      { functions := [], classes := [], assignments := [("A", ⟨"hA", "1"⟩)],
        type_aliases := [] }
      (pythonRevisionDefs (fun s => s) [("bad.py", some (.invalid "boom"))])).removed
      = [] ∧
    (compareDefinitions
      { functions := [], classes := [], assignments := [("A", ⟨"hA", "1"⟩)],
        type_aliases := [] }
      (pythonRevisionDefs (fun s => s) [("bad.py", some (.invalid "boom"))])).identical
      = true := by
  refine ⟨?_, ?_, ?_, ?_⟩ <;> decide

/-- C7 as amended.  When the new revision's copy of a file is syntactically
invalid: the extractor returns only an error ("fails closed" — all four
maps empty), the file is dropped from the revision aggregate (the pipeline
result equals the pipeline without that file), and every function or class
name present in the old revision but in no successfully-extracted new file
lands by its display name in the removed list of the ComparisonResult — not
folded into a generic failure — making the result non-identical.  A
constant or annotated binding lost with the file is not classified and
leaves the result identical (see the counterexample). -/
theorem c7_parse_failure_cascade (hash : String → String)
    (pre post : List (String × Option PyFile)) (fname msg : String)
    (oldDefs : Definitions) :
    (extract_definitions hash (.invalid msg) fname).err =
        some ("Syntax error in " ++ fname ++ ": " ++ msg) ∧
    (extract_definitions hash (.invalid msg) fname).functions = [] ∧
    (extract_definitions hash (.invalid msg) fname).classes = [] ∧
    (extract_definitions hash (.invalid msg) fname).assignments = [] ∧
    (extract_definitions hash (.invalid msg) fname).type_aliases = [] ∧
    pythonRevisionDefs hash (pre ++ [(fname, some (.invalid msg))] ++ post) =
      pythonRevisionDefs hash (pre ++ post) ∧
    (∀ nf, nf ∈ oldDefs.functions.map Prod.fst →
      nf ∉ (pythonRevisionDefs hash
        (pre ++ [(fname, some (.invalid msg))] ++ post)).functions.map Prod.fst →
      ("function: " ++ nf) ∈ (compareDefinitions oldDefs
        (pythonRevisionDefs hash (pre ++ [(fname, some (.invalid msg))] ++ post))).removed ∧
      (compareDefinitions oldDefs
        (pythonRevisionDefs hash (pre ++ [(fname, some (.invalid msg))] ++ post))).identical
        = false) ∧
    (∀ nc, nc ∈ oldDefs.classes.map Prod.fst →
      nc ∉ (pythonRevisionDefs hash
        (pre ++ [(fname, some (.invalid msg))] ++ post)).classes.map Prod.fst →
      ("class: " ++ nc) ∈ (compareDefinitions oldDefs
        (pythonRevisionDefs hash (pre ++ [(fname, some (.invalid msg))] ++ post))).removed ∧
      (compareDefinitions oldDefs
        (pythonRevisionDefs hash (pre ++ [(fname, some (.invalid msg))] ++ post))).identical
        = false) := by
  have hident : ∀ x, x ∈ (compareDefinitions oldDefs
      (pythonRevisionDefs hash (pre ++ [(fname, some (.invalid msg))] ++ post))).removed →
      (compareDefinitions oldDefs
        (pythonRevisionDefs hash (pre ++ [(fname, some (.invalid msg))] ++ post))).identical
        = false := by
    intro x hx
    rw [comparePy_identical_eq]
    cases h : (compareDefinitions oldDefs
        (pythonRevisionDefs hash (pre ++ [(fname, some (.invalid msg))] ++ post))).removed.isEmpty with
    | true => exact absurd (List.isEmpty_iff.mp h ▸ hx) (List.not_mem_nil _)
    | false => simp [h]
  refine ⟨rfl, rfl, rfl, rfl, rfl, ?_, fun nf hold hnew => ?_, fun nc hold hnew => ?_⟩
  · unfold pythonRevisionDefs
    congr 1
    simp [List.filterMap_append, List.filter_append, extract_definitions]
  · have hrem : ("function: " ++ nf) ∈ (compareDefinitions oldDefs
        (pythonRevisionDefs hash (pre ++ [(fname, some (.invalid msg))] ++ post))).removed := by
      simp only [compareDefinitions, foldl_classifyOld, foldl_classifyAdded,
        List.nil_append, List.append_nil]
      refine List.mem_append_left _ (List.mem_map.mpr ⟨nf, ?_, rfl⟩)
      refine List.mem_filter.mpr ⟨List.mem_dedup.mpr hold, ?_⟩
      simp only [Bool.not_eq_true', decide_eq_false_iff_not, List.mem_dedup]
      exact hnew
    exact ⟨hrem, hident _ hrem⟩
  · have hrem : ("class: " ++ nc) ∈ (compareDefinitions oldDefs
        (pythonRevisionDefs hash (pre ++ [(fname, some (.invalid msg))] ++ post))).removed := by
      simp only [compareDefinitions, foldl_classifyOld, foldl_classifyAdded,
        List.nil_append, List.append_nil]
      refine List.mem_append_right _ (List.mem_map.mpr ⟨nc, ?_, rfl⟩)
      refine List.mem_filter.mpr ⟨List.mem_dedup.mpr hold, ?_⟩
      simp only [Bool.not_eq_true', decide_eq_false_iff_not, List.mem_dedup]
      exact hnew
    exact ⟨hrem, hident _ hrem⟩

/-- Witness for C7: the old revision holds function f and class K; the new
revision's copy of their file is invalid (plus one empty valid file): both
show up by name in removed, the comparison is non-identical, and the
pipeline equals the pipeline without the broken file. -/
theorem c7_parse_failure_cascade_witness :
    ("function: " ++ "f") ∈ (compareDefinitions
      { functions := [("f", ⟨⟨[], none, [], false⟩, "h", "b", 1⟩)],
        classes := [("K", ⟨[], [], "hk", "bk", 2⟩)],
        assignments := [], type_aliases := [] }
      (pythonRevisionDefs (fun s => s)
        [("bad.py", some (.invalid "boom")), ("good.py", some (.valid []))])).removed ∧
    ("class: " ++ "K") ∈ (compareDefinitions
      { functions := [("f", ⟨⟨[], none, [], false⟩, "h", "b", 1⟩)],
        classes := [("K", ⟨[], [], "hk", "bk", 2⟩)],
        assignments := [], type_aliases := [] }
      (pythonRevisionDefs (fun s => s)
        [("bad.py", some (.invalid "boom")), ("good.py", some (.valid []))])).removed ∧
    (compareDefinitions
      { functions := [("f", ⟨⟨[], none, [], false⟩, "h", "b", 1⟩)],
        classes := [("K", ⟨[], [], "hk", "bk", 2⟩)],
        assignments := [], type_aliases := [] }
      (pythonRevisionDefs (fun s => s)
        [("bad.py", some (.invalid "boom")), ("good.py", some (.valid []))])).identical
      = false ∧
    pythonRevisionDefs (fun s => s)
        [("bad.py", some (.invalid "boom")), ("good.py", some (.valid []))] =
      pythonRevisionDefs (fun s => s) [("good.py", some (.valid []))] := by
  have h := c7_parse_failure_cascade (fun s => s) [] [("good.py", some (.valid []))]
    "bad.py" "boom"
    { functions := [("f", ⟨⟨[], none, [], false⟩, "h", "b", 1⟩)],
      classes := [("K", ⟨[], [], "hk", "bk", 2⟩)],
      assignments := [], type_aliases := [] }
  have hf := h.2.2.2.2.2.2.1 "f" (by decide) (by decide)
  have hk := h.2.2.2.2.2.2.2 "K" (by decide) (by decide)
  exact ⟨hf.1, hk.1, hf.2, h.2.2.2.2.2.1⟩

/-! ## The detailed script's rename handling
(verify-refactor-detailed.ts lines 337-439)

The rename check substitutes the new name for every whole-word occurrence of
the old name in the old body —
`oldCode.replace(new RegExp("\\b" + oldName + "\\b", "g"), newName)` — and
only then compares with the new body.  `replaceWordAll` reproduces that
global word-boundary replacement for identifier patterns (the script's
rename keys are Python identifiers, so a `\b` boundary holds exactly where
the neighbouring character is not a word character).  The scan is fuelled by
the string length so that it stays structurally recursive. -/

def isWordChar (c : Char) : Bool :=
  ('a' ≤ c && c ≤ 'z') || ('A' ≤ c && c ≤ 'Z') || ('0' ≤ c && c ≤ '9') || c = '_'

def replaceWordGo (target repl : List Char) : Nat → Bool → List Char → List Char
  | 0, _, l => l
  | _ + 1, _, [] => []
  | fuel + 1, prevWord, c :: rest =>
    if target.isPrefixOf (c :: rest) && !prevWord &&
        (match (c :: rest).drop target.length with
         | [] => true
         | d :: _ => !isWordChar d) then
      repl ++ replaceWordGo target repl fuel
        (isWordChar ((target.getLast?).getD c)) ((c :: rest).drop target.length)
    else
      c :: replaceWordGo target repl fuel (isWordChar c) rest

/-- `s.replace(new RegExp("\\b" + target + "\\b", "g"), repl)` for an
identifier `target`. -/
def replaceWordAll (target repl s : String) : String :=
  if target.data = [] then s
  else String.mk (replaceWordGo target.data repl.data (s.data.length + 1) false s.data)

/-- What the detailed script's Python-function analysis prints, collected as
data: the rename pairs found body-identical after substitution ("Body
identical (just renamed)") and those not; the removed list (old names absent
from new and not rename sources); the added list (new names absent from old
and not rename targets); the modified list (shared names with different
bodies); and the funcMatches statistic. -/
structure PyFunctionAnalysis where
  renamedIdentical : List (String × String)
  renamedChanged : List (String × String)
  removed : List String
  added : List String
  modified : List String
  funcMatches : Nat
deriving DecidableEq, Repr

def analyzePythonFunctions (renames : List (String × String))
    (oldFuncs newFuncs : List (String × String)) : PyFunctionAnalysis :=
  let oldNames := (oldFuncs.map Prod.fst).dedup
  let newNames := (newFuncs.map Prod.fst).dedup
  let renamePairs := renames.filter
    (fun p => decide (p.1 ∈ oldNames) && decide (p.2 ∈ newNames))
  { renamedIdentical := renamePairs.filter (fun p =>
      decide (replaceWordAll p.1 p.2 ((lookupKey p.1 oldFuncs).getD "") =
        (lookupKey p.2 newFuncs).getD ""))
    renamedChanged := renamePairs.filter (fun p =>
      !decide (replaceWordAll p.1 p.2 ((lookupKey p.1 oldFuncs).getD "") =
        (lookupKey p.2 newFuncs).getD ""))
    removed := oldNames.filter (fun nm =>
      !decide (nm ∈ newNames) && !decide (nm ∈ renames.map Prod.fst))
    added := newNames.filter (fun nm =>
      !decide (nm ∈ oldNames) && !decide (nm ∈ renames.map Prod.snd))
    modified := oldNames.filter (fun nm =>
      decide (nm ∈ newNames) &&
        !decide ((lookupKey nm oldFuncs).getD "" = (lookupKey nm newFuncs).getD ""))
    funcMatches := (oldNames.filter (fun nm =>
      decide (nm ∈ newNames) &&
        decide ((lookupKey nm oldFuncs).getD "" = (lookupKey nm newFuncs).getD ""))).length }

/-! ## C3: rename matching goes through name substitution, not literal
body equality

The claim as stated — new body identical token-for-token to the old body —
fails whenever the body mentions the old name (as a Python `def` body always
does): the script substitutes the new name into the old body before
comparing, so a literally identical body is reported as "Body also
changed". -/

/-- Counterexample to C3 as stated: alias f→g, old f and new g with the
very same body "def f(): return 1"; the pair is classified
rename-with-changed-body, not a rename match (though indeed neither removed
nor added). -/
theorem c3_rename_literal_body_counterexample :
    ("f", "g") ∈ (analyzePythonFunctions [("f", "g")]
      [("f", "def f(): return 1")] [("g", "def f(): return 1")]).renamedChanged ∧
    ("f", "g") ∉ (analyzePythonFunctions [("f", "g")]
      [("f", "def f(): return 1")] [("g", "def f(): return 1")]).renamedIdentical ∧
    "f" ∉ (analyzePythonFunctions [("f", "g")]
      [("f", "def f(): return 1")] [("g", "def f(): return 1")]).removed ∧
    "g" ∉ (analyzePythonFunctions [("f", "g")]
      [("f", "def f(): return 1")] [("g", "def f(): return 1")]).added := by
  refine ⟨?_, ?_, ?_, ?_⟩ <;> decide

/-- C3 as amended: with alias (o, n), o in the old set with body bo, n in
the new set with body bn, and bn equal to bo after substituting n for every
whole-word occurrence of o, the pair is classified as a rename match
("Body identical (just renamed)"), and o is never listed removed nor n
listed added. -/
theorem c3_rename_match_amended (renames : List (String × String))
    (oldFuncs newFuncs : List (String × String)) (o n bo bn : String)
    (hmem : (o, n) ∈ renames)
    (ho : lookupKey o oldFuncs = some bo)
    (hn : lookupKey n newFuncs = some bn)
    (hb : replaceWordAll o n bo = bn) :
    (o, n) ∈ (analyzePythonFunctions renames oldFuncs newFuncs).renamedIdentical ∧
    o ∉ (analyzePythonFunctions renames oldFuncs newFuncs).removed ∧
    n ∉ (analyzePythonFunctions renames oldFuncs newFuncs).added := by
  have hoMem : o ∈ oldFuncs.map Prod.fst :=
    (lookupKey_isSome_iff o oldFuncs).mp (by simp [ho])
  have hnMem : n ∈ newFuncs.map Prod.fst :=
    (lookupKey_isSome_iff n newFuncs).mp (by simp [hn])
  refine ⟨?_, ?_, ?_⟩
  · refine List.mem_filter.mpr ⟨List.mem_filter.mpr ⟨hmem, ?_⟩, ?_⟩
    · simp [List.mem_dedup, hoMem, hnMem]
    · simp [ho, hn, hb]
  · intro hcon
    have := (List.mem_filter.mp hcon).2
    simp only [Bool.and_eq_true, Bool.not_eq_true', decide_eq_false_iff_not] at this
    exact this.2 (List.mem_map.mpr ⟨(o, n), hmem, rfl⟩)
  · intro hcon
    have := (List.mem_filter.mp hcon).2
    simp only [Bool.and_eq_true, Bool.not_eq_true', decide_eq_false_iff_not] at this
    exact this.2 (List.mem_map.mpr ⟨(o, n), hmem, rfl⟩)

/-- Witness for the amended C3: f renamed to g, bodies equal after the
substitution. -/
theorem c3_rename_match_amended_witness :
    ("f", "g") ∈ (analyzePythonFunctions [("f", "g")]
      [("f", "def f(): return 1")] [("g", "def g(): return 1")]).renamedIdentical ∧
    "f" ∉ (analyzePythonFunctions [("f", "g")]
      [("f", "def f(): return 1")] [("g", "def g(): return 1")]).removed ∧
    "g" ∉ (analyzePythonFunctions [("f", "g")]
      [("f", "def f(): return 1")] [("g", "def g(): return 1")]).added :=
  c3_rename_match_amended [("f", "g")] [("f", "def f(): return 1")]
    [("g", "def g(): return 1")] "f" "g" "def f(): return 1" "def g(): return 1"
    (by decide) (by decide) (by decide) (by decide)

end VR
